import Mathlib

/-!
Shallow embedding of the `vbsp` BSP-container decoder (src/bspfile.rs,
src/data/game.rs, src/error.rs). Bytes are `List Nat` with each byte reduced
mod 256 at read time; fallible reads return `Option`; library errors are the
`BErr` inductive mirroring `BspError`. 32-bit float fields are carried as
their 4-byte little-endian bit patterns (the decoder only moves those bytes;
it performs no float arithmetic during decode).
-/

namespace VBsp

/-! ### Little-endian byte readers (binrw `read_le` on a cursor) -/

/-- Read one byte from the front of the buffer. -/
def readU8 : List Nat → Option (Nat × List Nat)
  | [] => none
  | b :: rest => some (b % 256, rest)

/-- Read a little-endian `u16`. -/
def readU16le (l : List Nat) : Option (Nat × List Nat) := do
  let (b0, l) ← readU8 l
  let (b1, l) ← readU8 l
  some (b0 + 256 * b1, l)

/-- Read a little-endian `u32`. -/
def readU32le (l : List Nat) : Option (Nat × List Nat) := do
  let (b0, l) ← readU8 l
  let (b1, l) ← readU8 l
  let (b2, l) ← readU8 l
  let (b3, l) ← readU8 l
  some (b0 + 256 * b1 + 65536 * b2 + 16777216 * b3, l)

/-- Interpret a `u32` value as a two's-complement `i32`. -/
def toI32 (n : Nat) : Int :=
  if n < 2 ^ 31 then (n : Int) else (n : Int) - 2 ^ 32

/-- Read a little-endian `i32`. -/
def readI32le (l : List Nat) : Option (Int × List Nat) := do
  let (n, l) ← readU32le l
  some (toI32 n, l)

/-- An `f32` field is carried as its 4-byte little-endian bit pattern. -/
def readF32bits (l : List Nat) : Option (Nat × List Nat) :=
  readU32le l

/-! ### Header and lump directory (`src/bspfile.rs`) -/

/-- The 4 magic bytes of the file preamble.
Modelled from the spec: the `Header` struct itself lives in a source file not
provided (only its use in `BspFile::new` is); per the spec it is the four
magic bytes read as four consecutive `u8` fields. -/
structure Header where
  v : Nat
  b : Nat
  s : Nat
  p : Nat
deriving DecidableEq, Repr

/-- A directory lump entry.
Modelled from the spec: the `LumpEntry` struct lives in a source file not
provided; per the spec it is 16 bytes
`offset:u32, length:u32, compression_id:u32, version:u32` (the code calls the
compression id `ident`). -/
structure LumpEntry where
  offset : Nat
  length : Nat
  ident : Nat
  version : Nat
deriving DecidableEq, Repr

/-- A game-lump directory entry (`GameLump` in src/data/game.rs):
`id:i32, flags:u16, version:u16, offset:i32, length:i32`. -/
structure GameLump where
  id : Int
  flags : Nat
  version : Nat
  offset : Int
  length : Int
deriving DecidableEq, Repr

/-- The library error type `BspError`, restricted to the constructors the
embedded operations can produce. `ioError` stands for `BspError::IO`. -/
inductive BErr where
  | unexpectedHeader (h : Header)
  | lumpOutOfBounds (e : LumpEntry)
  | gameLumpOutOfBounds (l : GameLump)
  | lumpDecompressError
  | ioError
  | stringError
  | malformedData
  | lumpVersion (lumpType : String) (version : Nat)
deriving DecidableEq, Repr

/-- Read the 4-byte `Header` (binrw derive: four consecutive `u8`). -/
def readHeader (l : List Nat) : Option (Header × List Nat) := do
  let (v, l) ← readU8 l
  let (b, l) ← readU8 l
  let (s, l) ← readU8 l
  let (p, l) ← readU8 l
  some (⟨v, b, s, p⟩, l)

/-- Read one 16-byte `LumpEntry`. -/
def readLumpEntry (l : List Nat) : Option (LumpEntry × List Nat) := do
  let (off, l) ← readU32le l
  let (len, l) ← readU32le l
  let (ident, l) ← readU32le l
  let (ver, l) ← readU32le l
  some (⟨off, len, ident, ver⟩, l)

/-- Read `n` consecutive `LumpEntry` records. -/
def readLumpEntries : Nat → List Nat → Option (List LumpEntry × List Nat)
  | 0, l => some ([], l)
  | n + 1, l => do
    let (e, l) ← readLumpEntry l
    let (es, l) ← readLumpEntries n l
    some (e :: es, l)

/-- The constant `EXPECTED_HEADER` of `BspFile::new`: bytes 0x56 0x42 0x53
0x50, the ASCII string "VBSP". -/
def expectedHeader : Header := ⟨0x56, 0x42, 0x53, 0x50⟩

/-- The constant `EXPECTED_VERSION` of `BspFile::new`. -/
def expectedVersion : Nat := 0x14

/-- `BspFile::new`: read header and version little-endian, compare against the
constants, then read the 64-entry directory. A read past the end of the buffer
is an I/O error (binrw `Error::Io` through `From<binrw::Error>`). -/
def bspFileNew (data : List Nat) : Except BErr (Header × List LumpEntry) :=
  match readHeader data with
  | none => .error .ioError
  | some (h, l) =>
    match readU32le l with
    | none => .error .ioError
    | some (ver, l) =>
      if h ≠ expectedHeader ∨ ver ≠ expectedVersion then
        .error (.unexpectedHeader h)
      else
        match readLumpEntries 64 l with
        | none => .error .ioError
        | some (dirs, _) => .ok (h, dirs)

/-! ### Lump store (`BspFile::get_lump`) -/

/-- `Cow<[u8]>`: a borrowed view into the source buffer or an owned buffer. -/
inductive CowBytes where
  | borrowed (bytes : List Nat)
  | owned (bytes : List Nat)
deriving DecidableEq, Repr

/-- The bytes behind either `Cow` case. -/
def CowBytes.bytes : CowBytes → List Nat
  | .borrowed b => b
  | .owned b => b

/-- Rust `slice.get(a..b)`: `None` when `a > b` or `b > len`, otherwise the
subslice `[a, b)`. -/
def sliceGet (data : List Nat) (a b : Nat) : Option (List Nat) :=
  if a ≤ b ∧ b ≤ data.length then some ((data.drop a).take (b - a)) else none

/-- `BspFile::get_lump`, parameterized by the compressed-frame decoder
`dec raw expectedUncompressedSize` (`lzma_decompress_with_header`, whose body
is outside the provided sources): slice `[offset, offset+length)` (u32 values,
`as usize` casts are value-preserving), fail with `LumpOutOfBounds` carrying
the entry when the range exceeds the buffer; `compression_id == 0` returns the
slice borrowed, otherwise the decoder output owned. -/
def getLump (dec : List Nat → Nat → Except BErr (List Nat))
    (data : List Nat) (lump : LumpEntry) : Except BErr CowBytes :=
  match sliceGet data lump.offset (lump.offset + lump.length) with
  | none => .error (.lumpOutOfBounds lump)
  | some raw =>
    match lump.ident with
    | 0 => .ok (.borrowed raw)
    | _ =>
      match dec raw lump.ident with
      | .error e => .error e
      | .ok out => .ok (.owned out)

/-! ### Game-lump directory (`GameLumpHeader` in src/data/game.rs) -/

/-- The parsed game-lump sub-directory: entry count then that many entries. -/
structure GameLumpHeader where
  lumps : List GameLump
deriving DecidableEq, Repr

/-- Wrapping `i32` arithmetic (release-mode Rust `+`/`-` on `i32`). -/
def wrap32 (x : Int) : Int :=
  (x + 2 ^ 31) % 2 ^ 32 - 2 ^ 31

/-- Rust `as usize` on an `i32` value: sign-extend to 64 bits and
reinterpret. -/
def usizeOfI32 (x : Int) : Nat :=
  (x % 2 ^ 64).toNat

/-- `GameLumpFlags::COMPRESSED` membership: bit 0 of the `u16` flag word. -/
def GameLump.isCompressed (l : GameLump) : Bool :=
  l.flags % 2 = 1

/-- `GameLumpHeader::get_game_lump_data`, parameterized by the
compressed-frame decoder `dec raw expectedUncompressedSize`. Compressed entry:
the successor entry by index bounds the compressed span
`[offset, offset + (next.offset - offset))`; no successor or a span the buffer
cannot satisfy is `GameLumpOutOfBounds` carrying the entry; the decoder output
(expected size `length`) gets 8 zero bytes appended and is owned. Uncompressed
entry: the borrowed slice `[offset, offset + length)`. -/
def getGameLumpData (dec : List Nat → Nat → Except BErr (List Nat))
    (self : GameLumpHeader) (i : Nat) (lump : GameLump) (data : List Nat) :
    Except BErr CowBytes :=
  if lump.isCompressed then
    match self.lumps.get? (i + 1) with
    | none => .error (.gameLumpOutOfBounds lump)
    | some next =>
      match sliceGet data (usizeOfI32 lump.offset)
          (usizeOfI32 (wrap32 (lump.offset + wrap32 (next.offset - lump.offset)))) with
      | none => .error (.gameLumpOutOfBounds lump)
      | some raw =>
        match dec raw (usizeOfI32 lump.length) with
        | .error e => .error e
        | .ok out => .ok (.owned (out ++ List.replicate 8 0))
  else
    match sliceGet data (usizeOfI32 lump.offset)
        (usizeOfI32 (wrap32 (lump.offset + lump.length))) with
    | none => .error (.gameLumpOutOfBounds lump)
    | some raw => .ok (.borrowed raw)

/-- `Iterator::enumerate().find(...)` over the directory, with `i` the index
of the first entry of the remaining list: the first entry (with its index)
whose `id` equals the requested tag. -/
def firstMatchFrom (i : Nat) : List GameLump → Int → Option (Nat × GameLump)
  | [], _ => none
  | l :: rest, tid =>
    if l.id = tid then some (i, l) else firstMatchFrom (i + 1) rest tid

/-- `Iterator::enumerate().find(...)` over the whole directory. -/
def firstMatch (lumps : List GameLump) (tid : Int) : Option (Nat × GameLump) :=
  firstMatchFrom 0 lumps tid

/-- `GameLumpHeader::find`, parameterized by the compressed-frame decoder and
by the record decoder `decodeT bytes version` (binrw `read_le_args` of the
requested record type). `none` when no entry carries the tag; otherwise the
first matching entry's bytes are fetched and decoded with that entry's
version. -/
def GameLumpHeader.find (dec : List Nat → Nat → Except BErr (List Nat))
    (decodeT : List Nat → Nat → Except BErr α)
    (self : GameLumpHeader) (tid : Int) (data : List Nat) :
    Option (Except BErr α) :=
  match firstMatch self.lumps tid with
  | none => none
  | some (i, lump) =>
    some (match getGameLumpData dec self i lump data with
      | .error e => .error e
      | .ok bytes => decodeT bytes.bytes lump.version)

/-- The `sprp` tag of `PropStaticGameLump`: `i32::from_be_bytes(*b"sprp")`. -/
def sprpId : Int :=
  toI32 (0x73 * 16777216 + 0x70 * 65536 + 0x72 * 256 + 0x70)

/-! ### Static-prop record layouts (src/data/game.rs) -/

/-- Three `f32` values (a `Vector` or an `[f32; 3]` angle triple) carried as
bit patterns. -/
structure Vec3Bits where
  x : Nat
  y : Nat
  z : Nat
deriving DecidableEq, Repr

/-- Read three consecutive little-endian `f32` fields. -/
def readVec3 (l : List Nat) : Option (Vec3Bits × List Nat) := do
  let (x, l) ← readF32bits l
  let (y, l) ← readF32bits l
  let (z, l) ← readF32bits l
  some (⟨x, y, z⟩, l)

/-- `SolidType`: a `u8` with variants 0..=7 (`None` through `Last`); any other
byte is a binrw enum-decode failure. Carried as the raw discriminant. -/
def readSolidType (l : List Nat) : Option (Nat × List Nat) := do
  let (b, l) ← readU8 l
  if b < 8 then some (b, l) else none

/-- The compact legacy layout `StaticPropLumpV6`: no pad byte after `solid`,
`u8` flag field right after it, no lightmap-resolution fields. -/
structure StaticPropLumpV6 where
  origin : Vec3Bits
  angles : Vec3Bits
  prop_type : Nat
  first_leaf : Nat
  leaf_count : Nat
  solid : Nat
  flags : Nat
  skin : Int
  fade_min_distance : Nat
  fade_max_distance : Nat
  lighting_origin : Vec3Bits
  forced_fade_scale : Nat
  min_dx_level : Nat
  max_dx_level : Nat
deriving DecidableEq, Repr

/-- The extended layout `StaticPropLumpV10` shared by versions 7, 9 and 10:
one literal pad byte after `solid`, a `u32` flag field and two trailing `u16`
lightmap-resolution fields. -/
structure StaticPropLumpV10 where
  origin : Vec3Bits
  angles : Vec3Bits
  prop_type : Nat
  first_leaf : Nat
  leaf_count : Nat
  solid : Nat
  skin : Int
  fade_min_distance : Nat
  fade_max_distance : Nat
  lighting_origin : Vec3Bits
  forced_fade_scale : Nat
  min_dx_level : Nat
  max_dx_level : Nat
  flags : Nat
  lightmap_resolution : Nat × Nat
deriving DecidableEq, Repr

/-- The canonical `StaticPropLump` record. -/
structure StaticPropLump where
  origin : Vec3Bits
  angles : Vec3Bits
  prop_type : Nat
  first_leaf : Nat
  leaf_count : Nat
  solid : Nat
  skin : Int
  fade_min_distance : Nat
  fade_max_distance : Nat
  lighting_origin : Vec3Bits
  forced_fade_scale : Nat
  min_dx_level : Nat
  max_dx_level : Nat
  flags : Nat
  lightmap_resolution : Nat × Nat
deriving DecidableEq, Repr

/-- binrw derive for `StaticPropLumpV6`: fields little-endian in declaration
order. -/
def readStaticPropV6 (l : List Nat) : Option (StaticPropLumpV6 × List Nat) :=
  match readVec3 l with
  | none => none
  | some (origin, l) =>
  match readVec3 l with
  | none => none
  | some (angles, l) =>
  match readU16le l with
  | none => none
  | some (propType, l) =>
  match readU16le l with
  | none => none
  | some (firstLeaf, l) =>
  match readU16le l with
  | none => none
  | some (leafCount, l) =>
  match readSolidType l with
  | none => none
  | some (solid, l) =>
  match readU8 l with
  | none => none
  | some (flags, l) =>
  match readI32le l with
  | none => none
  | some (skin, l) =>
  match readF32bits l with
  | none => none
  | some (fadeMin, l) =>
  match readF32bits l with
  | none => none
  | some (fadeMax, l) =>
  match readVec3 l with
  | none => none
  | some (lightingOrigin, l) =>
  match readF32bits l with
  | none => none
  | some (forcedFadeScale, l) =>
  match readU16le l with
  | none => none
  | some (minDx, l) =>
  match readU16le l with
  | none => none
  | some (maxDx, l) =>
    some (⟨origin, angles, propType, firstLeaf, leafCount, solid, flags, skin,
      fadeMin, fadeMax, lightingOrigin, forcedFadeScale, minDx, maxDx⟩, l)

/-- binrw derive for `StaticPropLumpV10`: fields in declaration order, with
the `pad_after = 1` literal byte consumed right after `solid`. -/
def readStaticPropV10 (l : List Nat) :
    Option (StaticPropLumpV10 × List Nat) :=
  match readVec3 l with
  | none => none
  | some (origin, l) =>
  match readVec3 l with
  | none => none
  | some (angles, l) =>
  match readU16le l with
  | none => none
  | some (propType, l) =>
  match readU16le l with
  | none => none
  | some (firstLeaf, l) =>
  match readU16le l with
  | none => none
  | some (leafCount, l) =>
  match readSolidType l with
  | none => none
  | some (solid, l) =>
  match readU8 l with
  | none => none
  | some (_pad, l) =>
  match readI32le l with
  | none => none
  | some (skin, l) =>
  match readF32bits l with
  | none => none
  | some (fadeMin, l) =>
  match readF32bits l with
  | none => none
  | some (fadeMax, l) =>
  match readVec3 l with
  | none => none
  | some (lightingOrigin, l) =>
  match readF32bits l with
  | none => none
  | some (forcedFadeScale, l) =>
  match readU16le l with
  | none => none
  | some (minDx, l) =>
  match readU16le l with
  | none => none
  | some (maxDx, l) =>
  match readU32le l with
  | none => none
  | some (flags, l) =>
  match readU16le l with
  | none => none
  | some (lm0, l) =>
  match readU16le l with
  | none => none
  | some (lm1, l) =>
    some (⟨origin, angles, propType, firstLeaf, leafCount, solid, skin,
      fadeMin, fadeMax, lightingOrigin, forcedFadeScale, minDx, maxDx,
      flags, (lm0, lm1)⟩, l)

/-- The union of the bits the wide `StaticPropLumpFlags` set defines
(`0x1` through `0x100`). -/
def wideFlagMask : Nat := 0x1FF

/-- `From<StaticPropLumpFlagsV6> for StaticPropLumpFlags`:
`from_bits_truncate(v6.bits() as u32)`, i.e. zero-extend the `u8` and keep
only the defined wide bits. -/
def widenFlagsV6 (b : Nat) : Nat :=
  b &&& wideFlagMask

/-- `From<StaticPropLumpV6> for StaticPropLump`: copy every shared field,
widen the flags, default the lightmap resolution. -/
def staticPropLumpOfV6 (f : StaticPropLumpV6) : StaticPropLump where
  origin := f.origin
  angles := f.angles
  prop_type := f.prop_type
  first_leaf := f.first_leaf
  leaf_count := f.leaf_count
  solid := f.solid
  skin := f.skin
  fade_min_distance := f.fade_min_distance
  fade_max_distance := f.fade_max_distance
  lighting_origin := f.lighting_origin
  forced_fade_scale := f.forced_fade_scale
  min_dx_level := f.min_dx_level
  max_dx_level := f.max_dx_level
  flags := widenFlagsV6 f.flags
  lightmap_resolution := (0, 0)

/-- `From<StaticPropLumpV10> for StaticPropLump`: copy every field. -/
def staticPropLumpOfV10 (f : StaticPropLumpV10) : StaticPropLump where
  origin := f.origin
  angles := f.angles
  prop_type := f.prop_type
  first_leaf := f.first_leaf
  leaf_count := f.leaf_count
  solid := f.solid
  skin := f.skin
  fade_min_distance := f.fade_min_distance
  fade_max_distance := f.fade_max_distance
  lighting_origin := f.lighting_origin
  forced_fade_scale := f.forced_fade_scale
  min_dx_level := f.min_dx_level
  max_dx_level := f.max_dx_level
  flags := f.flags
  lightmap_resolution := f.lightmap_resolution

/-- A `BinResult` failure inside `StaticPropLump::read_options`: either a
structural decode failure (truncated input, invalid `SolidType` byte) or the
`UnsupportedLumpVersion` custom diagnostic. -/
inductive PropReadErr where
  | decodeFail
  | unsupported (lumpType : String) (version : Nat)
deriving DecidableEq, Repr

/-- `<StaticPropLump as BinRead>::read_options`: dispatch on the declared
version, reading the legacy layout for 6, the shared extended layout for
7, 9 and 10, and failing with `UnsupportedLumpVersion` otherwise. -/
def StaticPropLump.readOptions (version : Nat) (l : List Nat) :
    Except PropReadErr (StaticPropLump × List Nat) :=
  if version = 6 then
    match readStaticPropV6 l with
    | none => .error .decodeFail
    | some (r, rest) => .ok (staticPropLumpOfV6 r, rest)
  else if version = 7 ∨ version = 9 ∨ version = 10 then
    match readStaticPropV10 l with
    | none => .error .decodeFail
    | some (r, rest) => .ok (staticPropLumpOfV10 r, rest)
  else
    .error (.unsupported "static props" version)

/-! ### Orientation (`StaticPropLump::rotation`)

The cgmath calls `Quaternion::from_angle_y(Deg(a))` produce the quaternion
`(cos(a/2), sin(a/2) * axis)` in `f32`. The embedding carries the half-angle
cosine and sine as abstract rational inputs; at angle 0 IEEE `f32` evaluates
them to exactly 1 and 0, which is the case the claims exercise. -/

/-- A quaternion with rational components `w + xi + yj + zk`. -/
structure QuatQ where
  w : ℚ
  x : ℚ
  y : ℚ
  z : ℚ
deriving DecidableEq, Repr

/-- cgmath quaternion (Hamilton) product. -/
def quatMul (a b : QuatQ) : QuatQ where
  w := a.w * b.w - a.x * b.x - a.y * b.y - a.z * b.z
  x := a.w * b.x + a.x * b.w + a.y * b.z - a.z * b.y
  y := a.w * b.y + a.y * b.w + a.z * b.x - a.x * b.z
  z := a.w * b.z + a.z * b.w + a.x * b.y - a.y * b.x

/-- `Quaternion::from_angle_y` with half-angle cosine `c` and sine `s`. -/
def fromAngleY (c s : ℚ) : QuatQ := ⟨c, 0, s, 0⟩

/-- `Quaternion::from_angle_x` with half-angle cosine `c` and sine `s`. -/
def fromAngleX (c s : ℚ) : QuatQ := ⟨c, s, 0, 0⟩

/-- `Quaternion::from_angle_z` with half-angle cosine `c` and sine `s`. -/
def fromAngleZ (c s : ℚ) : QuatQ := ⟨c, 0, 0, s⟩

/-- `StaticPropLump::rotation`:
`from_angle_y(angles[1]) * from_angle_x(angles[0]) * from_angle_z(angles[2])`,
with each angle's half-angle trig pair abstracted. `cy sy` belong to the yaw
(`angles[1]`), `cx sx` to the pitch (`angles[0]`), `cz sz` to the roll
(`angles[2]`). -/
def rotationQuat (cy sy cx sx cz sz : ℚ) : QuatQ :=
  quatMul (fromAngleY cy sy) (quatMul (fromAngleX cx sx) (fromAngleZ cz sz))

/-! ### Error conversions (src/error.rs) -/

/-- The payload of a `binrw::Error::Custom`: the two diagnostics the library
itself raises, or any other boxed error type. -/
inductive CustomPayload where
  | stringErr
  | unsupportedVer (lumpType : String) (version : Nat)
  | otherCustom
deriving DecidableEq, Repr

/-- The `binrw::Error` variants: `Io`, `Custom`, and the remaining
structural-decode failures caught by the catch-all arm. -/
inductive BinrwError where
  | ioErr
  | custom (p : CustomPayload)
  | badMagic
  | assertFail
  | noVariantMatch
  | enumErrors
  | backtrace
deriving DecidableEq, Repr

/-- `From<binrw::Error> for BspError`. `none` models the
`panic!("unexpected custom error")` arm: no library error is produced for a
custom payload that is neither a `StringError` nor an
`UnsupportedLumpVersion`. -/
def bspErrorOfBinrw : BinrwError → Option BErr
  | .ioErr => some .ioError
  | .custom .stringErr => some .stringError
  | .custom (.unsupportedVer t v) => some (.lumpVersion t v)
  | .custom .otherCustom => none
  | _ => some .malformedData

/-- The `lzma_rs::error::Error` variants: an I/O failure or one of the codec
failures. -/
inductive LzmaError where
  | ioFailure
  | lzmaFailure
  | xzFailure
deriving DecidableEq, Repr

/-- `From<lzma_rs::error::Error> for BspError`: preserve I/O failures, wrap
everything else as `LumpDecompressError`. -/
def bspErrorOfLzma : LzmaError → BErr
  | .ioFailure => .ioError
  | _ => .lumpDecompressError

/-! ### Helper lemmas -/

theorem wrap32_of_bounds {x : Int} (h0 : -(2 ^ 31) ≤ x) (h1 : x < 2 ^ 31) :
    wrap32 x = x := by
  unfold wrap32
  omega

theorem usizeOfI32_of_bounds {x : Int} (h0 : 0 ≤ x) (h1 : x < 2 ^ 64) :
    usizeOfI32 x = x.toNat := by
  unfold usizeOfI32
  omega

/-- `BspFile::new` on a buffer of at least 8 bytes reduces to the
header/version comparison followed by the directory read. -/
theorem bspFileNew_cons (b0 b1 b2 b3 b4 b5 b6 b7 : Nat) (rest : List Nat) :
    bspFileNew (b0 :: b1 :: b2 :: b3 :: b4 :: b5 :: b6 :: b7 :: rest) =
      if Header.mk (b0 % 256) (b1 % 256) (b2 % 256) (b3 % 256) ≠ expectedHeader ∨
          b4 % 256 + 256 * (b5 % 256) + 65536 * (b6 % 256) +
            16777216 * (b7 % 256) ≠ expectedVersion then
        .error (.unexpectedHeader
          (Header.mk (b0 % 256) (b1 % 256) (b2 % 256) (b3 % 256)))
      else
        match readLumpEntries 64 rest with
        | none => .error .ioError
        | some (dirs, _) =>
          .ok (Header.mk (b0 % 256) (b1 % 256) (b2 % 256) (b3 % 256), dirs) :=
  rfl

/-! ### Claim theorems -/

/-- C5: for every input buffer, parsing the container succeeds only when the 4
magic bytes equal the ASCII constant "VBSP" and the following 4-byte
little-endian version integer equals the single supported constant; every
other 8-byte prefix is rejected with a header-mismatch error carrying the
actually-read header. -/
theorem c5_header_validation (b0 b1 b2 b3 b4 b5 b6 b7 : Nat) (rest : List Nat) :
    ((Header.mk (b0 % 256) (b1 % 256) (b2 % 256) (b3 % 256) ≠ expectedHeader ∨
        b4 % 256 + 256 * (b5 % 256) + 65536 * (b6 % 256) +
          16777216 * (b7 % 256) ≠ expectedVersion) →
      bspFileNew (b0 :: b1 :: b2 :: b3 :: b4 :: b5 :: b6 :: b7 :: rest) =
        .error (.unexpectedHeader
          (Header.mk (b0 % 256) (b1 % 256) (b2 % 256) (b3 % 256)))) ∧
    (∀ r, bspFileNew (b0 :: b1 :: b2 :: b3 :: b4 :: b5 :: b6 :: b7 :: rest) =
        .ok r →
      Header.mk (b0 % 256) (b1 % 256) (b2 % 256) (b3 % 256) = expectedHeader ∧
      b4 % 256 + 256 * (b5 % 256) + 65536 * (b6 % 256) +
        16777216 * (b7 % 256) = expectedVersion) := by
  rw [bspFileNew_cons]
  constructor
  · intro hbad
    rw [if_pos hbad]
  · intro r hr
    by_cases hc : Header.mk (b0 % 256) (b1 % 256) (b2 % 256) (b3 % 256) ≠
        expectedHeader ∨
        b4 % 256 + 256 * (b5 % 256) + 65536 * (b6 % 256) +
          16777216 * (b7 % 256) ≠ expectedVersion
    · rw [if_pos hc] at hr
      exact absurd hr (by simp)
    · push_neg at hc
      exact hc

/-- C5 witness: the all-zero 8-byte prefix is rejected with the
header-mismatch error carrying the read header. -/
theorem c5_header_validation_witness :
    bspFileNew [0, 0, 0, 0, 0, 0, 0, 0] =
      .error (.unexpectedHeader (Header.mk 0 0 0 0)) :=
  (c5_header_validation 0 0 0 0 0 0 0 0 []).1 (by decide)

/-- C6: for every lump entry whose byte range `[offset, offset + length)` does
not lie within the source buffer, `get_lump` fails with the lump-out-of-bounds
error kind carrying that entry (the embedding is a total function, so no panic
or out-of-range read is possible). -/
theorem c6_lump_out_of_bounds (dec : List Nat → Nat → Except BErr (List Nat))
    (data : List Nat) (lump : LumpEntry)
    (h : data.length < lump.offset + lump.length) :
    getLump dec data lump = .error (.lumpOutOfBounds lump) := by
  unfold getLump sliceGet
  rw [if_neg (by omega)]

/-- C6 witness: a 1-byte lump at offset 0 of an empty buffer is out of
bounds. -/
theorem c6_lump_out_of_bounds_witness :
    getLump (fun _ _ => .ok []) [] ⟨0, 1, 0, 0⟩ =
      .error (.lumpOutOfBounds ⟨0, 1, 0, 0⟩) :=
  c6_lump_out_of_bounds (fun _ _ => .ok []) [] ⟨0, 1, 0, 0⟩ (by decide)

/-- C7: for every lump entry with `compression_id` 0 whose range lies within
the buffer, `get_lump` returns a borrowed view byte-identical to
`buffer[offset..offset + length]` (the `borrowed` case of the `Cow` result:
no new allocation). -/
theorem c7_uncompressed_borrowed (dec : List Nat → Nat → Except BErr (List Nat))
    (data : List Nat) (lump : LumpEntry)
    (hid : lump.ident = 0) (hb : lump.offset + lump.length ≤ data.length) :
    getLump dec data lump =
      .ok (.borrowed ((data.drop lump.offset).take lump.length)) := by
  unfold getLump sliceGet
  rw [if_pos ⟨Nat.le_add_right _ _, hb⟩, hid]
  simp

/-- C7 witness: an uncompressed 2-byte lump at offset 1 of a 4-byte buffer is
returned borrowed and byte-identical to the slice. -/
theorem c7_uncompressed_borrowed_witness :
    getLump (fun _ _ => .ok []) [10, 11, 12, 13] ⟨1, 2, 0, 0⟩ =
      .ok (.borrowed [11, 12]) :=
  (c7_uncompressed_borrowed (fun _ _ => .ok []) [10, 11, 12, 13] ⟨1, 2, 0, 0⟩
    (by decide) (by decide)).trans rfl

/-- The compressed branch of `get_game_lump_data` with the i32 wrapping and
`as usize` casts discharged: for non-negative, properly ordered offsets the
sliced span is exactly `[offset, next.offset)`. -/
theorem getGameLumpData_compressed_eq
    (dec : List Nat → Nat → Except BErr (List Nat)) (hdr : GameLumpHeader)
    (i : Nat) (lump next : GameLump) (data : List Nat)
    (hcomp : lump.isCompressed = true)
    (hnext : hdr.lumps.get? (i + 1) = some next)
    (h0 : 0 ≤ lump.offset) (h1 : lump.offset ≤ next.offset)
    (h2 : next.offset < 2 ^ 31) :
    getGameLumpData dec hdr i lump data =
      match sliceGet data lump.offset.toNat next.offset.toNat with
      | none => .error (.gameLumpOutOfBounds lump)
      | some raw =>
        match dec raw (usizeOfI32 lump.length) with
        | .error e => .error e
        | .ok out => .ok (.owned (out ++ List.replicate 8 0)) := by
  have e1 : usizeOfI32 lump.offset = lump.offset.toNat :=
    usizeOfI32_of_bounds h0 (by omega)
  have einner : wrap32 (next.offset - lump.offset) = next.offset - lump.offset :=
    wrap32_of_bounds (by omega) (by omega)
  have e2 : usizeOfI32
      (wrap32 (lump.offset + wrap32 (next.offset - lump.offset))) =
      next.offset.toNat := by
    rw [einner,
      show lump.offset + (next.offset - lump.offset) = next.offset from by ring,
      wrap32_of_bounds (by omega) h2]
    exact usizeOfI32_of_bounds (by omega) (by omega)
  simp only [getGameLumpData, hcomp, if_true, hnext, e1, e2]

/-- The uncompressed branch of `get_game_lump_data` with the i32 wrapping and
`as usize` casts discharged. -/
theorem getGameLumpData_uncompressed_eq
    (dec : List Nat → Nat → Except BErr (List Nat)) (hdr : GameLumpHeader)
    (i : Nat) (lump : GameLump) (data : List Nat)
    (hcomp : lump.isCompressed = false)
    (h0 : 0 ≤ lump.offset) (h1 : 0 ≤ lump.length)
    (h2 : lump.offset + lump.length < 2 ^ 31) :
    getGameLumpData dec hdr i lump data =
      match sliceGet data lump.offset.toNat (lump.offset + lump.length).toNat with
      | none => .error (.gameLumpOutOfBounds lump)
      | some raw => .ok (.borrowed raw) := by
  have e1 : usizeOfI32 lump.offset = lump.offset.toNat :=
    usizeOfI32_of_bounds h0 (by omega)
  have e2 : usizeOfI32 (wrap32 (lump.offset + lump.length)) =
      (lump.offset + lump.length).toNat := by
    rw [wrap32_of_bounds (by omega) h2]
    exact usizeOfI32_of_bounds (by omega) (by omega)
  simp only [getGameLumpData, hcomp, Bool.false_eq_true, if_false, e1, e2]

/-- C1: for every game-lump directory and every entry flagged compressed, the
compressed span handed to the decoder is
`[entry.offset, entry.offset + (next.offset - entry.offset))` where `next` is
the entry immediately following by directory index (its byte length is exactly
`next.offset - entry.offset`); if there is no next entry, or the computed span
exceeds the source buffer, the lookup fails with the game-lump-out-of-bounds
error carrying the entry. -/
theorem c1_compressed_span (dec : List Nat → Nat → Except BErr (List Nat))
    (hdr : GameLumpHeader) (i : Nat) (lump : GameLump) (data : List Nat)
    (hcomp : lump.isCompressed = true) (h0 : 0 ≤ lump.offset) :
    (hdr.lumps.get? (i + 1) = none →
      getGameLumpData dec hdr i lump data =
        .error (.gameLumpOutOfBounds lump)) ∧
    (∀ next, hdr.lumps.get? (i + 1) = some next →
      lump.offset ≤ next.offset → next.offset < 2 ^ 31 →
      ((next.offset.toNat ≤ data.length →
        getGameLumpData dec hdr i lump data =
          (match dec ((data.drop lump.offset.toNat).take
                (next.offset.toNat - lump.offset.toNat))
              (usizeOfI32 lump.length) with
            | .error e => .error e
            | .ok out => .ok (.owned (out ++ List.replicate 8 0))) ∧
        ((data.drop lump.offset.toNat).take
            (next.offset.toNat - lump.offset.toNat)).length =
          (next.offset - lump.offset).toNat) ∧
      (data.length < next.offset.toNat →
        getGameLumpData dec hdr i lump data =
          .error (.gameLumpOutOfBounds lump)))) := by
  constructor
  · intro hnone
    simp only [getGameLumpData, hcomp, if_true, hnone]
  · intro next hnext h1 h2
    rw [getGameLumpData_compressed_eq dec hdr i lump next data hcomp hnext h0 h1 h2]
    constructor
    · intro hin
      have hs : sliceGet data lump.offset.toNat next.offset.toNat =
          some ((data.drop lump.offset.toNat).take
            (next.offset.toNat - lump.offset.toNat)) := by
        unfold sliceGet
        rw [if_pos ⟨by omega, hin⟩]
      constructor
      · simp only [hs]
      · simp only [List.length_take, List.length_drop]
        omega
    · intro hout
      have hs : sliceGet data lump.offset.toNat next.offset.toNat = none := by
        unfold sliceGet
        rw [if_neg (by omega)]
      simp only [hs]

/-- C1 witness: three entries at offsets 100, 102, 103 (`C = 2`), the first
compressed; the decoder receives exactly the 2 source bytes at
`[100, 102)`, and the same entry as last entry of a directory fails with the
bounds error. -/
theorem c1_compressed_span_witness :
    ((getGameLumpData (fun raw _ => .ok raw)
        ⟨[⟨1, 1, 6, 100, 50⟩, ⟨2, 0, 6, 102, 5⟩, ⟨3, 0, 6, 103, 4⟩]⟩ 0
        ⟨1, 1, 6, 100, 50⟩ (List.replicate 102 7) =
      .ok (.owned [7, 7, 0, 0, 0, 0, 0, 0, 0, 0])) ∧
    (getGameLumpData (fun raw _ => .ok raw) ⟨[⟨1, 1, 6, 100, 50⟩]⟩ 0
        ⟨1, 1, 6, 100, 50⟩ (List.replicate 102 7) =
      .error (.gameLumpOutOfBounds ⟨1, 1, 6, 100, 50⟩))) := by
  constructor
  · have h := ((c1_compressed_span (fun raw _ => .ok raw)
      ⟨[⟨1, 1, 6, 100, 50⟩, ⟨2, 0, 6, 102, 5⟩, ⟨3, 0, 6, 103, 4⟩]⟩ 0
      ⟨1, 1, 6, 100, 50⟩ (List.replicate 102 7) (by decide) (by decide)).2
      ⟨2, 0, 6, 102, 5⟩ rfl (by decide) (by decide)).1 (by simp)
    exact h.1.trans (by simp)
  · exact (c1_compressed_span (fun raw _ => .ok raw) ⟨[⟨1, 1, 6, 100, 50⟩]⟩ 0
      ⟨1, 1, 6, 100, 50⟩ (List.replicate 102 7) (by decide) (by decide)).1 rfl

/-- C2: for every compressed game-lump entry that decompresses successfully,
the returned buffer is the decompressed payload (decoded with `entry.length`
as the expected uncompressed size) followed by exactly 8 appended zero bytes,
owned; for every uncompressed entry the returned bytes are exactly the slice
`[entry.offset, entry.offset + entry.length)` of the source buffer, borrowed,
with no padding appended. -/
theorem c2_decompressed_padding (dec : List Nat → Nat → Except BErr (List Nat))
    (hdr : GameLumpHeader) (i : Nat) (lump : GameLump) (data : List Nat) :
    (∀ next out, lump.isCompressed = true →
      hdr.lumps.get? (i + 1) = some next →
      0 ≤ lump.offset → lump.offset ≤ next.offset → next.offset < 2 ^ 31 →
      next.offset.toNat ≤ data.length →
      dec ((data.drop lump.offset.toNat).take
          (next.offset.toNat - lump.offset.toNat)) (usizeOfI32 lump.length) =
        .ok out →
      getGameLumpData dec hdr i lump data =
        .ok (.owned (out ++ List.replicate 8 0))) ∧
    (lump.isCompressed = false →
      0 ≤ lump.offset → 0 ≤ lump.length → lump.offset + lump.length < 2 ^ 31 →
      (lump.offset + lump.length).toNat ≤ data.length →
      getGameLumpData dec hdr i lump data =
        .ok (.borrowed ((data.drop lump.offset.toNat).take
          ((lump.offset + lump.length).toNat - lump.offset.toNat)))) := by
  constructor
  · intro next out hcomp hnext h0 h1 h2 hin hdec
    rw [getGameLumpData_compressed_eq dec hdr i lump next data hcomp hnext h0 h1 h2]
    have hs : sliceGet data lump.offset.toNat next.offset.toNat =
        some ((data.drop lump.offset.toNat).take
          (next.offset.toNat - lump.offset.toNat)) := by
      unfold sliceGet
      rw [if_pos ⟨by omega, hin⟩]
    simp only [hs, hdec]
  · intro hcomp h0 h1 h2 hin
    rw [getGameLumpData_uncompressed_eq dec hdr i lump data hcomp h0 h1 h2]
    have hs : sliceGet data lump.offset.toNat (lump.offset + lump.length).toNat =
        some ((data.drop lump.offset.toNat).take
          ((lump.offset + lump.length).toNat - lump.offset.toNat)) := by
      unfold sliceGet
      rw [if_pos ⟨by omega, hin⟩]
    simp only [hs]

/-- C2 witness: a compressed entry whose payload decodes to `[9, 9, 9]` comes
back owned with exactly 8 zero bytes appended; an uncompressed entry at
`[1, 3)` comes back borrowed with no padding. -/
theorem c2_decompressed_padding_witness :
    (getGameLumpData (fun _ _ => .ok [9, 9, 9])
        ⟨[⟨1, 1, 6, 0, 3⟩, ⟨2, 0, 6, 2, 5⟩]⟩ 0 ⟨1, 1, 6, 0, 3⟩ [4, 5, 6] =
      .ok (.owned [9, 9, 9, 0, 0, 0, 0, 0, 0, 0, 0])) ∧
    (getGameLumpData (fun _ _ => .ok [9, 9, 9])
        ⟨[⟨1, 1, 6, 0, 3⟩, ⟨2, 0, 6, 2, 5⟩]⟩ 1 ⟨2, 0, 6, 1, 2⟩ [4, 5, 6] =
      .ok (.borrowed [5, 6])) := by
  constructor
  · exact (c2_decompressed_padding (fun _ _ => .ok [9, 9, 9])
      ⟨[⟨1, 1, 6, 0, 3⟩, ⟨2, 0, 6, 2, 5⟩]⟩ 0 ⟨1, 1, 6, 0, 3⟩ [4, 5, 6]).1
      ⟨2, 0, 6, 2, 5⟩ [9, 9, 9] (by decide) rfl (by decide) (by decide)
      (by decide) (by simp) rfl
  · exact ((c2_decompressed_padding (fun _ _ => .ok [9, 9, 9])
      ⟨[⟨1, 1, 6, 0, 3⟩, ⟨2, 0, 6, 2, 5⟩]⟩ 1 ⟨2, 0, 6, 1, 2⟩ [4, 5, 6]).2
      (by decide) (by decide) (by decide) (by decide) (by simp)).trans rfl

/-- `enumerate().find` returns nothing when no entry matches the tag. -/
theorem firstMatchFrom_eq_none (tid : Int) :
    ∀ (lumps : List GameLump) (i : Nat), (∀ l ∈ lumps, l.id ≠ tid) →
      firstMatchFrom i lumps tid = none
  | [], _, _ => rfl
  | l :: rest, i, h => by
    unfold firstMatchFrom
    rw [if_neg (h l (List.mem_cons_self _ _))]
    exact firstMatchFrom_eq_none tid rest (i + 1)
      (fun x hx => h x (List.mem_cons_of_mem _ hx))

/-- `enumerate().find` returns the first matching entry with its index. -/
theorem firstMatchFrom_eq_some (tid : Int) :
    ∀ (lumps : List GameLump) (k : Nat) (lump : GameLump) (i : Nat),
      lumps.get? k = some lump → lump.id = tid →
      (∀ j < k, ∀ l, lumps.get? j = some l → l.id ≠ tid) →
      firstMatchFrom i lumps tid = some (i + k, lump)
  | [], k, lump, i, hk, _, _ => by
    rw [List.get?_nil] at hk
    exact Option.noConfusion hk
  | l :: rest, 0, lump, i, hk, hid, _ => by
    have hl : l = lump := by simpa using hk
    subst hl
    unfold firstMatchFrom
    rw [if_pos hid, Nat.add_zero]
  | l :: rest, k + 1, lump, i, hk, hid, hmin => by
    have hne : l.id ≠ tid := hmin 0 (Nat.succ_pos _) l rfl
    unfold firstMatchFrom
    rw [if_neg hne]
    have hk' : rest.get? k = some lump := by simpa using hk
    have hrec := firstMatchFrom_eq_some tid rest k lump (i + 1) hk' hid
      (fun j hj l' hl' => hmin (j + 1) (by omega) l' (by simpa using hl'))
    rw [hrec, show i + 1 + k = i + (k + 1) from by omega]

/-- C10: for every game-lump directory and record tag, if no directory
entry's id equals the tag then `find` returns `None` (absence, not an error)
whatever the source buffer holds; if at least one entry matches, `find`
selects the first matching entry in directory order and decodes the record
bytes using that entry's version field. -/
theorem c10_find_semantics {α : Type}
    (dec : List Nat → Nat → Except BErr (List Nat))
    (decodeT : List Nat → Nat → Except BErr α)
    (hdr : GameLumpHeader) (tid : Int) (data : List Nat) :
    ((∀ l ∈ hdr.lumps, l.id ≠ tid) →
      GameLumpHeader.find dec decodeT hdr tid data = none) ∧
    (∀ k lump, hdr.lumps.get? k = some lump → lump.id = tid →
      (∀ j < k, ∀ l, hdr.lumps.get? j = some l → l.id ≠ tid) →
      GameLumpHeader.find dec decodeT hdr tid data =
        some (match getGameLumpData dec hdr k lump data with
          | .error e => .error e
          | .ok bytes => decodeT bytes.bytes lump.version)) := by
  constructor
  · intro h
    unfold GameLumpHeader.find firstMatch
    rw [firstMatchFrom_eq_none tid hdr.lumps 0 h]
  · intro k lump hk hid hmin
    unfold GameLumpHeader.find firstMatch
    rw [firstMatchFrom_eq_some tid hdr.lumps k lump 0 hk hid hmin]
    simp only [Nat.zero_add]

/-- C10 witness: with a 2-entry directory whose second entry carries the
requested tag, `find` decodes that entry's bytes with its version (here the
record decoder returns byte count plus version, `2 + 4`); with a 1-entry
directory carrying a different tag, `find` returns `none`. -/
theorem c10_find_semantics_witness :
    (GameLumpHeader.find (fun _ _ => .ok [])
        (fun bytes v => (.ok (bytes.length + v) : Except BErr Nat))
        ⟨[⟨5, 0, 3, 0, 1⟩, ⟨7, 0, 4, 0, 2⟩]⟩ 7 [9, 9, 9] = some (.ok 6)) ∧
    (GameLumpHeader.find (fun _ _ => .ok [])
        (fun bytes v => (.ok (bytes.length + v) : Except BErr Nat))
        ⟨[⟨5, 0, 3, 0, 1⟩]⟩ 7 [9, 9, 9] = none) := by
  constructor
  · have h := (c10_find_semantics (fun _ _ => .ok [])
      (fun bytes v => (.ok (bytes.length + v) : Except BErr Nat))
      ⟨[⟨5, 0, 3, 0, 1⟩, ⟨7, 0, 4, 0, 2⟩]⟩ 7 [9, 9, 9]).2 1 ⟨7, 0, 4, 0, 2⟩
      rfl rfl (by
        intro j hj l hl
        have hj0 : j = 0 := by omega
        subst hj0
        have hl' : (⟨5, 0, 3, 0, 1⟩ : GameLump) = l := by simpa using hl
        subst hl'
        decide)
    exact h.trans rfl
  · exact (c10_find_semantics (fun _ _ => .ok [])
      (fun bytes v => (.ok (bytes.length + v) : Except BErr Nat))
      ⟨[⟨5, 0, 3, 0, 1⟩]⟩ 7 [9, 9, 9]).1 (by decide)

/-- C3: for every static-prop record decode with declared version `v`: `v = 6`
reads the compact legacy layout (then normalizes it), `v = 7, 9, 10` read the
single shared extended layout, and any other `v` fails with the
unsupported-lump-version error carrying the lump category name
"static props" and the offending version. -/
theorem c3_version_dispatch (v : Nat) (l : List Nat) :
    ((v ≠ 6 ∧ v ≠ 7 ∧ v ≠ 9 ∧ v ≠ 10) →
      StaticPropLump.readOptions v l =
        .error (.unsupported "static props" v)) ∧
    ((v = 7 ∨ v = 9 ∨ v = 10) →
      StaticPropLump.readOptions v l =
        match readStaticPropV10 l with
        | none => .error .decodeFail
        | some (r, rest) => .ok (staticPropLumpOfV10 r, rest)) ∧
    (StaticPropLump.readOptions 6 l =
      match readStaticPropV6 l with
      | none => .error .decodeFail
      | some (r, rest) => .ok (staticPropLumpOfV6 r, rest)) := by
  refine ⟨?_, ?_, ?_⟩
  · intro ⟨h6, h7, h9, h10⟩
    unfold StaticPropLump.readOptions
    rw [if_neg h6, if_neg (by tauto)]
  · intro hv
    unfold StaticPropLump.readOptions
    rw [if_neg (by rcases hv with h | h | h <;> omega), if_pos hv]
  · rfl

/-- C3 witness: version 99 fails with the unsupported-lump-version error
carrying "static props" and 99. -/
theorem c3_version_dispatch_witness :
    StaticPropLump.readOptions 99 [] =
      .error (.unsupported "static props" 99) :=
  (c3_version_dispatch 99 []).1 (by decide)

/-- C4: the orientation returned by `rotation()` composes yaw (Y axis) first,
then pitch (X axis), then roll (Z axis); with pitch and roll at angle 0
(whose half-angle cosine and sine are exactly 1 and 0, also in IEEE `f32`)
the result is the pure yaw rotation for every yaw angle — in particular
yaw = 90. -/
theorem c4_rotation_composition (cy sy : ℚ) :
    rotationQuat cy sy 1 0 1 0 = fromAngleY cy sy := by
  simp [rotationQuat, quatMul, fromAngleY, fromAngleX, fromAngleZ]

/-- C4 witness: with the half-angle pair of yaw 180 (cosine 0, sine 1) and
pitch and roll at 0, the composed rotation is the pure yaw quaternion. -/
theorem c4_rotation_composition_witness :
    rotationQuat 0 1 1 0 1 0 = fromAngleY 0 1 :=
  c4_rotation_composition 0 1

set_option maxRecDepth 2000 in
/-- The wide flag mask keeps any `u8` flag byte unchanged. -/
theorem widenFlagsV6_of_lt {b : Nat} (h : b < 256) : widenFlagsV6 b = b := by
  have hall : ∀ c, c < 256 → c &&& 511 = c := by decide
  exact hall b h

/-- C8: normalizing a version-6 static-prop record widens the flag bitset so
that each of the 8 narrow flag bits maps 1:1 into the low bits of the wider
set (for a `u8` flag byte the widened value is the byte itself), sets lightmap
resolution to the zero value, and leaves every shared field equal to the value
read from the wire. -/
theorem c8_v6_normalization (r : StaticPropLumpV6) (hf : r.flags < 256) :
    (staticPropLumpOfV6 r).origin = r.origin ∧
    (staticPropLumpOfV6 r).angles = r.angles ∧
    (staticPropLumpOfV6 r).prop_type = r.prop_type ∧
    (staticPropLumpOfV6 r).first_leaf = r.first_leaf ∧
    (staticPropLumpOfV6 r).leaf_count = r.leaf_count ∧
    (staticPropLumpOfV6 r).solid = r.solid ∧
    (staticPropLumpOfV6 r).skin = r.skin ∧
    (staticPropLumpOfV6 r).fade_min_distance = r.fade_min_distance ∧
    (staticPropLumpOfV6 r).fade_max_distance = r.fade_max_distance ∧
    (staticPropLumpOfV6 r).lighting_origin = r.lighting_origin ∧
    (staticPropLumpOfV6 r).forced_fade_scale = r.forced_fade_scale ∧
    (staticPropLumpOfV6 r).min_dx_level = r.min_dx_level ∧
    (staticPropLumpOfV6 r).max_dx_level = r.max_dx_level ∧
    (∀ i < 8, ((staticPropLumpOfV6 r).flags).testBit i = r.flags.testBit i) ∧
    (staticPropLumpOfV6 r).flags = r.flags ∧
    (staticPropLumpOfV6 r).lightmap_resolution = (0, 0) := by
  have hw : widenFlagsV6 r.flags = r.flags := widenFlagsV6_of_lt hf
  refine ⟨rfl, rfl, rfl, rfl, rfl, rfl, rfl, rfl, rfl, rfl, rfl, rfl, rfl,
    ?_, hw, rfl⟩
  intro i _
  show (widenFlagsV6 r.flags).testBit i = r.flags.testBit i
  rw [hw]

/-- C8 witness: a concrete version-6 record with flag byte 171 (0b10101011)
normalizes with the flag byte preserved in the low bits and lightmap
resolution zero. -/
theorem c8_v6_normalization_witness :
    (staticPropLumpOfV6 ⟨⟨1, 2, 3⟩, ⟨4, 5, 6⟩, 7, 8, 9, 2, 171, -3, 10, 11,
        ⟨12, 13, 14⟩, 15, 1, 2⟩).flags = 171 ∧
    (staticPropLumpOfV6 ⟨⟨1, 2, 3⟩, ⟨4, 5, 6⟩, 7, 8, 9, 2, 171, -3, 10, 11,
        ⟨12, 13, 14⟩, 15, 1, 2⟩).lightmap_resolution = (0, 0) := by
  have h := c8_v6_normalization ⟨⟨1, 2, 3⟩, ⟨4, 5, 6⟩, 7, 8, 9, 2, 171, -3, 10,
    11, ⟨12, 13, 14⟩, 15, 1, 2⟩ (by decide)
  exact ⟨h.2.2.2.2.2.2.2.2.2.2.2.2.2.2.1, h.2.2.2.2.2.2.2.2.2.2.2.2.2.2.2⟩

/-- C9 counterexample: converting a `binrw::Error::Custom` whose payload is
neither a string-encoding failure nor an unsupported-version diagnostic does
not produce the malformed-structural-data kind (nor any library error at
all): the conversion hits `panic!("unexpected custom error")`, modelled as
`none`. -/
theorem c9_error_normalization_counterexample :
    bspErrorOfBinrw (.custom .otherCustom) = none :=
  rfl

/-- C9 amended: every structured-decode failure converted into the library
error type becomes the malformed-structural-data kind, except that an
underlying I/O error is preserved as the I/O kind and a custom
string-encoding or unsupported-version diagnostic is preserved with its own
specific kind — while a custom diagnostic of any other type is not converted
at all (the conversion panics); every decompression failure is classified as
the I/O kind when the codec reports an I/O failure and as the
decompression-error kind otherwise. -/
theorem c9_error_normalization (t : String) (v : Nat) :
    bspErrorOfBinrw .ioErr = some .ioError ∧
    bspErrorOfBinrw (.custom .stringErr) = some .stringError ∧
    bspErrorOfBinrw (.custom (.unsupportedVer t v)) = some (.lumpVersion t v) ∧
    bspErrorOfBinrw (.custom .otherCustom) = none ∧
    bspErrorOfBinrw .badMagic = some .malformedData ∧
    bspErrorOfBinrw .assertFail = some .malformedData ∧
    bspErrorOfBinrw .noVariantMatch = some .malformedData ∧
    bspErrorOfBinrw .enumErrors = some .malformedData ∧
    bspErrorOfBinrw .backtrace = some .malformedData ∧
    bspErrorOfLzma .ioFailure = .ioError ∧
    bspErrorOfLzma .lzmaFailure = .lumpDecompressError ∧
    bspErrorOfLzma .xzFailure = .lumpDecompressError :=
  ⟨rfl, rfl, rfl, rfl, rfl, rfl, rfl, rfl, rfl, rfl, rfl, rfl⟩

/-- C9 witness: the unsupported-version diagnostic for "static props" at
version 99 is preserved with its specific kind. -/
theorem c9_error_normalization_witness :
    bspErrorOfBinrw (.custom (.unsupportedVer "static props" 99)) =
      some (.lumpVersion "static props" 99) :=
  (c9_error_normalization "static props" 99).2.2.1

end VBsp
